import Mathlib

/-!
Verification of the interflop-checkdenormal backend
(`src/interflop_checkdenormal.cxx`).

The backend intercepts floating-point operations, detects subnormal
(denormal) results and, when configured, flushes them to zero.  We embed
the program shallowly:

* IEEE-754 finite floating-point values of a format with `mbits` stored
  mantissa bits and `ebits` exponent bits are modelled by their bit
  fields (`FloatBits`); binary32 is `FloatBits 23 8`, binary64 is
  `FloatBits 52 11`.  Their numeric value is given by `FloatBits.toRat`.
* IEEE comparisons on finite values coincide with the order of the
  represented rational numbers, so `<` and `!= 0` on values are embedded
  through `toRat`.
* Every finite value of a format is an integer multiple of the smallest
  subnormal magnitude `2 ^ (1 - bias - mbits)`; `FloatBits.scaled` gives
  that integer.  IEEE round-to-nearest-even of an exact result is
  implemented on these integers (`roundIntScaled`), which is what the
  kernel can evaluate on concrete inputs; `toRat_eq_scaled` ties the two
  views together.  Overflow to infinity is outside the range any theorem
  here touches, and an inexact result that rounds to zero is modelled as
  `+0`.
* The conditional-compilation flag `IFCD_DOOP` (compute mode versus
  observe mode) is modelled as an explicit boolean argument `doop`.
* The global diagnostic hook `interflop_denormalHandler` is modelled by
  a boolean `handlerPresent`; each interceptor returns, next to the
  value left in the result slot, the boolean "the diagnostic hook was
  invoked".
-/

/-- The per-session context (`checkdenormal_context_t` in
`interflop_checkdenormal.h`): the single flush-to-zero flag. -/
structure checkdenormal_context_t where
  flushtozero : Bool
  deriving DecidableEq

/-- The configuration record (`checkdenormal_conf_t`). -/
structure checkdenormal_conf_t where
  flushtozero : Bool
  deriving DecidableEq

/-- Bit-field representation of a floating-point datum of a format with
`mbits` stored mantissa bits and `ebits` exponent bits (phantom
parameters).  `expf` is the biased exponent field, `mant` the stored
mantissa field. -/
structure FloatBits (mbits ebits : Nat) where
  sign : Bool
  expf : Nat
  mant : Nat
  deriving DecidableEq

/-- A bit pattern is a well-formed finite value: the exponent field is
not the all-ones (infinity/NaN) pattern and the mantissa field fits. -/
def FloatBits.wellFormed {mbits ebits : Nat} (r : FloatBits mbits ebits) : Prop :=
  r.expf < 2 ^ ebits - 1 ∧ r.mant < 2 ^ mbits

instance {mbits ebits : Nat} (r : FloatBits mbits ebits) :
    Decidable r.wellFormed := by
  unfold FloatBits.wellFormed; infer_instance

/-- Exponent bias of the format (127 for binary32, 1023 for binary64). -/
def bias (ebits : Nat) : ℤ :=
  ((2 ^ (ebits - 1) : ℕ) : ℤ) - 1

/-- `2 ^ e` over ℚ for an integer exponent, computed through
natural-number exponentiation. -/
def pow2z (e : ℤ) : ℚ :=
  if 0 ≤ e then ((2 ^ e.toNat : ℕ) : ℚ) else ((2 ^ (-e).toNat : ℕ) : ℚ)⁻¹

/-- The rational value represented by a finite bit pattern: subnormal
when the exponent field is zero, normal (implicit leading bit) otherwise. -/
def FloatBits.toRat {mbits ebits : Nat} (r : FloatBits mbits ebits) : ℚ :=
  let s : ℚ := if r.sign then -1 else 1
  if r.expf = 0 then
    s * r.mant * pow2z (1 - bias ebits - mbits)
  else
    s * ((2 : ℚ) ^ mbits + r.mant) * pow2z ((r.expf : ℤ) - bias ebits - mbits)

/-- Positive zero (`0.` in the C source, the value stored by the flush). -/
def zeroF (mbits ebits : Nat) : FloatBits mbits ebits :=
  ⟨false, 0, 0⟩

/-- `std::abs` on a finite floating-point value clears the sign bit. -/
def fabsF {mbits ebits : Nat} (r : FloatBits mbits ebits) : FloatBits mbits ebits :=
  { r with sign := false }

/-- `std::numeric_limits<REAL>::min()`: the bit pattern with exponent
field 1 and zero mantissa, the smallest positive normal value. -/
def numericLimitsMin (mbits ebits : Nat) : FloatBits mbits ebits :=
  ⟨false, 1, 0⟩

/-- The smallest positive normalized magnitude of the format, as a
rational number: `2 ^ (1 - bias)` (`2⁻¹²⁶` for binary32, `2⁻¹⁰²²` for
binary64).  This is the spec's `smallest_normal(width)`. -/
def minNormalRat (ebits : Nat) : ℚ :=
  (2 : ℚ) ^ (1 - bias ebits)

/-- The magnitude (absolute value) represented by the exponent and
mantissa fields, independent of the sign bit. -/
def FloatBits.mag {mbits ebits : Nat} (r : FloatBits mbits ebits) : ℚ :=
  if r.expf = 0 then
    r.mant * pow2z (1 - bias ebits - mbits)
  else
    ((2 : ℚ) ^ mbits + r.mant) * pow2z ((r.expf : ℤ) - bias ebits - mbits)

/-- The Denormal Detector: the condition guarding the flush-and-notify
branch of `flushToZeroAndCheck`
(`std::abs(*res) < std::numeric_limits<REAL>::min() && *res != 0.`).
IEEE `<` and `!=` on finite values compare the represented numbers. -/
def denormDetect {mbits ebits : Nat} (r : FloatBits mbits ebits) : Bool :=
  decide ((fabsF r).toRat < (numericLimitsMin mbits ebits).toRat)
    && decide (¬ r.toRat = 0)

/-- The Flush Policy Applier `flushToZeroAndCheck(res, ctx)`: when the
detector fires, invoke the diagnostic hook (if one is registered) and,
when `ctx->flushtozero`, overwrite the slot with `0.`.  Returns the
value left in the slot and whether the hook was invoked. -/
def flushToZeroAndCheck {mbits ebits : Nat} (res : FloatBits mbits ebits)
    (ctx : checkdenormal_context_t) (handlerPresent : Bool) :
    FloatBits mbits ebits × Bool :=
  if denormDetect res then
    ((if ctx.flushtozero then zeroF mbits ebits else res), handlerPresent)
  else
    (res, false)

/-- The value of a bit pattern as an integer multiple of the smallest
subnormal magnitude `2 ^ (1 - bias - mbits)` (see `toRat_eq_scaled`). -/
def FloatBits.scaled {mbits ebits : Nat} (r : FloatBits mbits ebits) : ℤ :=
  (if r.sign then -1 else 1) *
    (if r.expf = 0 then (r.mant : ℤ)
     else ((2 ^ mbits + r.mant : ℕ) : ℤ) * ((2 ^ (r.expf - 1) : ℕ) : ℤ))

/-- Fuel-driven binary logarithm: `ilog2Aux fuel n` is `⌊log₂ n⌋` for
`1 ≤ n ≤ 2 ^ fuel` (and `0` for `n = 0`). -/
def ilog2Aux : Nat → Nat → Nat
  | 0, _ => 0
  | fuel + 1, n => if 2 ≤ n then ilog2Aux fuel (n / 2) + 1 else 0

/-- `⌊log₂ n⌋` for `n ≥ 1` (`n` itself is always enough fuel). -/
def ilog2N (n : Nat) : Nat :=
  ilog2Aux n n

/-- Round a natural number to the nearest multiple of `2 ^ u`, ties to
the even multiple. -/
def roundNatToGrid (u a : ℕ) : ℕ :=
  let e := 2 ^ u
  let q := a / e
  let r := a % e
  if 2 * r < e then q * e
  else if e < 2 * r then (q + 1) * e
  else if q % 2 = 0 then q * e else (q + 1) * e

/-- IEEE round-to-nearest-even on exact results, in integer form.  The
exact result is `T * 2 ^ (1 - bias - mbits - d)` (`d` extra fraction
bits below the subnormal ulp); a finite value of the format, in the same
units, is a mantissa of at most `mbits + 1` bits shifted left by at
least `d`.  The rounding grid at magnitude `a = |T|` is therefore
`2 ^ max d (⌊log₂ a⌋ - mbits)`; the result is returned in units of the
subnormal ulp (shifted right by `d`). -/
def roundIntScaled (mbits d : ℕ) (T : ℤ) : ℤ :=
  let a := T.natAbs
  let u := max d (ilog2N a - mbits)
  let rounded := roundNatToGrid u a / 2 ^ d
  if T < 0 then -(rounded : ℤ) else (rounded : ℤ)

/-- Encode a representable scaled integer (a rounding result) back into
bit fields: below `2 ^ mbits` it is a subnormal mantissa; otherwise its
top bit fixes the exponent and the implicit leading one is dropped. -/
def encodeScaled (mbits ebits : Nat) (S : ℤ) : FloatBits mbits ebits :=
  let a := S.natAbs
  let s := decide (S < 0)
  if a < 2 ^ mbits then ⟨s, 0, a⟩
  else
    let k := ilog2N a - mbits
    ⟨s, k + 1, a / 2 ^ k - 2 ^ mbits⟩

/-- IEEE addition `a + b` of two same-format finite values: their exact
sum is an integer multiple of the subnormal ulp, rounded to nearest
even. -/
def fadd {mbits ebits : Nat} (a b : FloatBits mbits ebits) :
    FloatBits mbits ebits :=
  encodeScaled mbits ebits (roundIntScaled mbits 0 (a.scaled + b.scaled))

/-- Extra fraction bits of an exact product of two scaled values:
`bias + mbits - 1` (the scaled product sits `dShift` bits below the
subnormal ulp). -/
def dShift (mbits ebits : Nat) : ℕ :=
  2 ^ (ebits - 1) - 1 + mbits - 1

/-- Correctly rounded fused multiply-add `a * b + c`
(`interflop_fma_binary32` / `interflop_fma_binary64`): the exact value
`a*b + c`, rounded once to nearest even. -/
def ffma {mbits ebits : Nat} (a b c : FloatBits mbits ebits) :
    FloatBits mbits ebits :=
  encodeScaled mbits ebits
    (roundIntScaled mbits (dShift mbits ebits)
      (a.scaled * b.scaled + c.scaled * ((2 ^ dShift mbits ebits : ℕ) : ℤ)))

/-- `interflop_checkdenormal_add_double`: in compute mode (`IFCD_DOOP`
defined) the macro `APPLYOP` stores `a + b` into the result slot and
runs `flushToZeroAndCheck` on it; in observe mode it only runs
`flushToZeroAndCheck` on the caller-supplied slot. -/
def interflop_checkdenormal_add_double (doop : Bool) (a b : FloatBits 52 11)
    (res : FloatBits 52 11) (ctx : checkdenormal_context_t)
    (handlerPresent : Bool) : FloatBits 52 11 × Bool :=
  if doop then flushToZeroAndCheck (fadd a b) ctx handlerPresent
  else flushToZeroAndCheck res ctx handlerPresent

/-- `interflop_checkdenormal_add_float`, the 32-bit analogue. -/
def interflop_checkdenormal_add_float (doop : Bool) (a b : FloatBits 23 8)
    (res : FloatBits 23 8) (ctx : checkdenormal_context_t)
    (handlerPresent : Bool) : FloatBits 23 8 × Bool :=
  if doop then flushToZeroAndCheck (fadd a b) ctx handlerPresent
  else flushToZeroAndCheck res ctx handlerPresent

/-- `interflop_checkdenormal_fma_float`: the whole body is inside
`#ifdef IFCD_DOOP`, so in compute mode it stores the fused result and
runs `flushToZeroAndCheck`, while in observe mode the function body is
empty: the slot is untouched and no check runs. -/
def interflop_checkdenormal_fma_float (doop : Bool)
    (a b c res : FloatBits 23 8) (ctx : checkdenormal_context_t)
    (handlerPresent : Bool) : FloatBits 23 8 × Bool :=
  if doop then flushToZeroAndCheck (ffma a b c) ctx handlerPresent
  else (res, false)

/-- `interflop_checkdenormal_fma_double`, same shape as the 32-bit
variant: an empty body in observe mode. -/
def interflop_checkdenormal_fma_double (doop : Bool)
    (a b c res : FloatBits 52 11) (ctx : checkdenormal_context_t)
    (handlerPresent : Bool) : FloatBits 52 11 × Bool :=
  if doop then flushToZeroAndCheck (ffma a b c) ctx handlerPresent
  else (res, false)

/-- The binary64 value of the C literal `1e-310`: the decimal value
`10⁻³¹⁰` lies in the subnormal range, so its conversion rounds
`2¹⁰⁷⁴ / 10³¹⁰` to the nearest integer (ties to even) multiple of the
subnormal ulp.  The division below computes that half-even rounding. -/
def val_1e310 : FloatBits 52 11 :=
  encodeScaled 52 11
    (((let num := 2 ^ 1074
       let den := 10 ^ 310
       let q := num / den
       let r := num % den
       if 2 * r < den then q
       else if den < 2 * r then q + 1
       else if q % 2 = 0 then q else q + 1 : ℕ) : ℤ))

/-- `_set_checkdenormal_ftz`. -/
def _set_checkdenormal_ftz (ftz : Bool) (ctx : checkdenormal_context_t) :
    checkdenormal_context_t :=
  { ctx with flushtozero := ftz }

/-- The key of the single recognized option `--flush-to-zero`
(`KEY_FTZ`, first value of the `key_args` enum). -/
def KEY_FTZ : Int := 0

/-- `ARGP_ERR_UNKNOWN`, the argp error for an unrecognized argument
(`E2BIG` = 7 in glibc). -/
def ARGP_ERR_UNKNOWN : Int := 7

/-- `parse_opt`: the flush-to-zero key enables the flag on the context
passed as `state->input`; every other key is answered with
`ARGP_ERR_UNKNOWN`. -/
def parse_opt (key : Int) (ctx : checkdenormal_context_t) :
    Except Int checkdenormal_context_t :=
  if key = KEY_FTZ then Except.ok (_set_checkdenormal_ftz true ctx)
  else Except.error ARGP_ERR_UNKNOWN

/-- `interflop_checkdenormal_configure`: copy the record's flag into the
context. -/
def interflop_checkdenormal_configure (conf : checkdenormal_conf_t)
    (ctx : checkdenormal_context_t) : checkdenormal_context_t :=
  { ctx with flushtozero := conf.flushtozero }

/-- `_checkdenormal_init_context`: the default-initialized context
(`ctx->flushtozero = IFalse`). -/
def _checkdenormal_init_context : checkdenormal_context_t :=
  ⟨false⟩

/-- The context produced by `interflop_checkdenormal_pre_init`: the
entry point registers the panic handler and the logger (side effects
outside this model), allocates the context and default-initializes it
with `_checkdenormal_init_context`. -/
def interflop_checkdenormal_pre_init : checkdenormal_context_t :=
  _checkdenormal_init_context

/-- A configuration write in program order: applying a configuration
record through the configure entry point, or the CLI parse of the
flush-to-zero option. -/
inductive CfgWrite where
  | record (conf : checkdenormal_conf_t)
  | cliFtz
  deriving DecidableEq

/-- Apply one configuration write to the context. -/
def applyWrite (ctx : checkdenormal_context_t) : CfgWrite →
    checkdenormal_context_t
  | CfgWrite.record conf => interflop_checkdenormal_configure conf ctx
  | CfgWrite.cliFtz =>
    match parse_opt KEY_FTZ ctx with
    | Except.ok ctx2 => ctx2
    | Except.error _ => ctx

/-- The flag value a write stores: the record's flag, or `true` for the
CLI option. -/
def writeValue : CfgWrite → Bool
  | CfgWrite.record conf => conf.flushtozero
  | CfgWrite.cliFtz => true

/-- Outcome of the CLI entry point: either the parsed context, or the
fatal report through `interflop_panic`. -/
inductive CliOutcome where
  | parsed (ctx : checkdenormal_context_t)
  | fatal (msg : String)
  deriving DecidableEq

/-- The message `interflop_checkdenormal_cli` panics with when the host
supplied no `interflop_argp_parse`. -/
def argpMissingText : String :=
  "Interflop backend error: argp_parse not implemented"

/-- `interflop_checkdenormal_cli`: when the host supplied an
`interflop_argp_parse` primitive it is run over the context; otherwise
the entry point reports through `interflop_panic` and parses nothing. -/
def interflop_checkdenormal_cli
    (argpParse : Option (checkdenormal_context_t → checkdenormal_context_t))
    (ctx : checkdenormal_context_t) : CliOutcome :=
  match argpParse with
  | some f => CliOutcome.parsed (f ctx)
  | none => CliOutcome.fatal argpMissingText

/-- The backend's own implementations that can fill a slot of the
operation table. -/
inductive BackendFn where
  | add_float | sub_float | mul_float | div_float
  | add_double | sub_double | mul_double | div_double
  | cast_double_to_float | fma_float | fma_double | finalize
  deriving DecidableEq

/-- `struct interflop_backend_interface_t`: one slot per host-visible
operation, each either bound to a backend implementation or absent
(`Null`). -/
structure interflop_backend_interface_t where
  interflop_add_float : Option BackendFn
  interflop_sub_float : Option BackendFn
  interflop_mul_float : Option BackendFn
  interflop_div_float : Option BackendFn
  interflop_cmp_float : Option BackendFn
  interflop_add_double : Option BackendFn
  interflop_sub_double : Option BackendFn
  interflop_mul_double : Option BackendFn
  interflop_div_double : Option BackendFn
  interflop_cmp_double : Option BackendFn
  interflop_cast_double_to_float : Option BackendFn
  interflop_fma_float : Option BackendFn
  interflop_fma_double : Option BackendFn
  interflop_enter_function : Option BackendFn
  interflop_exit_function : Option BackendFn
  interflop_user_call : Option BackendFn
  interflop_finalize : Option BackendFn
  deriving DecidableEq

/-- The operation table built by `interflop_checkdenormal_init`: the
designated-initializer list of the source, slot for slot. -/
def interflop_checkdenormal_init : interflop_backend_interface_t :=
  { interflop_add_float := some BackendFn.add_float
    interflop_sub_float := some BackendFn.sub_float
    interflop_mul_float := some BackendFn.mul_float
    interflop_div_float := some BackendFn.div_float
    interflop_cmp_float := none
    interflop_add_double := some BackendFn.add_double
    interflop_sub_double := some BackendFn.sub_double
    interflop_mul_double := some BackendFn.mul_double
    interflop_div_double := some BackendFn.div_double
    interflop_cmp_double := none
    interflop_cast_double_to_float := some BackendFn.cast_double_to_float
    interflop_fma_float := some BackendFn.fma_float
    interflop_fma_double := some BackendFn.fma_double
    interflop_enter_function := none
    interflop_exit_function := none
    interflop_user_call := none
    interflop_finalize := some BackendFn.finalize }

-- Theorems: basic value lemmas first, then the claims.

theorem pow2z_eq (e : ℤ) : pow2z e = (2 : ℚ) ^ e := by
  unfold pow2z
  split
  case isTrue h =>
    push_cast
    rw [← zpow_natCast (2 : ℚ), Int.toNat_of_nonneg h]
  case isFalse h =>
    push_cast
    rw [← zpow_natCast (2 : ℚ), Int.toNat_of_nonneg (by omega), ← zpow_neg,
      neg_neg]

theorem toRat_zeroF (mbits ebits : Nat) : (zeroF mbits ebits).toRat = 0 := by
  simp [zeroF, FloatBits.toRat]

theorem mag_nonneg {mbits ebits : Nat} (r : FloatBits mbits ebits) :
    0 ≤ r.mag := by
  unfold FloatBits.mag
  split <;> rw [pow2z_eq] <;> positivity

theorem toRat_eq_sign_mag {mbits ebits : Nat} (r : FloatBits mbits ebits) :
    r.toRat = (if r.sign then -1 else 1) * r.mag := by
  unfold FloatBits.toRat FloatBits.mag
  cases hs : r.sign <;>
    simp only [hs, Bool.false_eq_true, if_false, if_true, one_mul, neg_one_mul] <;>
    split <;> ring

theorem toRat_fabsF {mbits ebits : Nat} (r : FloatBits mbits ebits) :
    (fabsF r).toRat = |r.toRat| := by
  have hmag : (fabsF r).mag = r.mag := by
    unfold FloatBits.mag fabsF
    rfl
  rw [toRat_eq_sign_mag, toRat_eq_sign_mag]
  show (if false = true then (-1:ℚ) else 1) * (fabsF r).mag = _
  rw [if_neg (by simp), hmag, one_mul]
  cases hs : r.sign with
  | false => rw [if_neg (by simp), one_mul, abs_of_nonneg (mag_nonneg r)]
  | true =>
    rw [if_pos rfl, neg_one_mul, abs_neg, abs_of_nonneg (mag_nonneg r)]

theorem toRat_numericLimitsMin (mbits ebits : Nat) :
    (numericLimitsMin mbits ebits).toRat = minNormalRat ebits := by
  unfold numericLimitsMin FloatBits.toRat minNormalRat
  simp only [if_neg (one_ne_zero), if_true]
  rw [pow2z_eq]
  norm_num
  rw [← zpow_natCast (2 : ℚ) mbits, ← zpow_add₀ (by norm_num : (2:ℚ) ≠ 0)]
  ring_nf

theorem denormDetect_zeroF (mbits ebits : Nat) :
    denormDetect (zeroF mbits ebits) = false := by
  unfold denormDetect
  simp [toRat_zeroF]

/-- `2 ^ mbits * 2 ^ (e - mbits) = 2 ^ e` over ℚ, used to relate the
normal significand scaling to the format threshold. -/
theorem two_pow_mul_zpow (mbits : Nat) (e : ℤ) :
    (2 : ℚ) ^ mbits * (2 : ℚ) ^ (e - mbits) = (2 : ℚ) ^ e := by
  rw [← zpow_natCast (2 : ℚ) mbits, ← zpow_add₀ (by norm_num : (2 : ℚ) ≠ 0)]
  ring_nf

/-- The semantic value of a bit pattern is its scaled integer times the
subnormal ulp. -/
theorem toRat_eq_scaled {mbits ebits : Nat} (r : FloatBits mbits ebits) :
    r.toRat = (r.scaled : ℚ) * pow2z (1 - bias ebits - mbits) := by
  unfold FloatBits.toRat FloatBits.scaled
  by_cases h0 : r.expf = 0
  · simp only [h0, if_true]
    push_cast
    cases r.sign <;> simp <;> ring
  · simp only [h0, if_false]
    have h1 : 1 ≤ r.expf := Nat.one_le_iff_ne_zero.2 h0
    have hexp : ((r.expf : ℤ)) - bias ebits - mbits
        = ((r.expf - 1 : ℕ) : ℤ) + (1 - bias ebits - mbits) := by
      push_cast [Nat.cast_sub h1]
      ring
    rw [pow2z_eq, pow2z_eq, hexp, zpow_add₀ (by norm_num : (2:ℚ) ≠ 0)]
    push_cast
    rw [zpow_natCast]
    cases r.sign <;> simp <;> ring

theorem pow2z_pos (e : ℤ) : 0 < pow2z e := by
  rw [pow2z_eq]
  positivity

/-- The Detector computed on the integer-scaled view: `|r.scaled|`
below `2 ^ mbits` and nonzero.  This is what the kernel evaluates on
concrete bit patterns. -/
theorem denormDetect_eq_scaled {mbits ebits : Nat} (r : FloatBits mbits ebits) :
    denormDetect r
      = (decide (r.scaled.natAbs < 2 ^ mbits) && decide (¬ r.scaled = 0)) := by
  unfold denormDetect
  have hP : (0 : ℚ) < pow2z (1 - bias ebits - mbits) := pow2z_pos _
  have h1 : ((fabsF r).toRat < (numericLimitsMin mbits ebits).toRat)
      ↔ (r.scaled.natAbs < 2 ^ mbits) := by
    rw [toRat_fabsF, toRat_numericLimitsMin, toRat_eq_scaled]
    unfold minNormalRat
    have h2 : (2 : ℚ) ^ (1 - bias ebits)
        = (2 : ℚ) ^ mbits * pow2z (1 - bias ebits - mbits) := by
      rw [pow2z_eq, two_pow_mul_zpow]
    rw [abs_mul, abs_of_pos hP, h2, mul_lt_mul_right hP, ← Int.cast_abs,
      Int.abs_eq_natAbs]
    norm_cast
  have h3 : (¬ r.toRat = 0) ↔ (¬ r.scaled = 0) := by
    rw [toRat_eq_scaled, mul_eq_zero]
    simp [hP.ne']
  rw [decide_eq_decide.2 h1, decide_eq_decide.2 h3]

/-- `flushToZeroAndCheck` with its Detector rewritten to the
integer-scaled view, for concrete evaluation. -/
theorem flushToZeroAndCheck_eq_scaled {mbits ebits : Nat}
    (res : FloatBits mbits ebits) (ctx : checkdenormal_context_t)
    (handlerPresent : Bool) :
    flushToZeroAndCheck res ctx handlerPresent
      = if (decide (res.scaled.natAbs < 2 ^ mbits) && decide (¬ res.scaled = 0)) then
          ((if ctx.flushtozero then zeroF mbits ebits else res), handlerPresent)
        else (res, false) := by
  unfold flushToZeroAndCheck
  rw [denormDetect_eq_scaled]

/-- C1: For every finite floating-point value `r` of a format, the
Denormal Detector (the guard of the flush-and-notify branch of
`flushToZeroAndCheck`) is true iff `|r| < smallest_normal` and `r ≠ 0`;
in particular it is false at zero and at any value of magnitude at least
`smallest_normal`; and `smallest_normal` (the value of
`numeric_limits<REAL>::min()`) is exactly the least positive normalized
magnitude of the format. -/
theorem C1_detector_correct {mbits ebits : Nat} (r : FloatBits mbits ebits)
    (hw : r.wellFormed) (he : 2 ≤ ebits) :
    (denormDetect r = true ↔ (|r.toRat| < minNormalRat ebits ∧ r.toRat ≠ 0)) ∧
    (r.toRat = 0 → denormDetect r = false) ∧
    (minNormalRat ebits ≤ |r.toRat| → denormDetect r = false) ∧
    IsLeast {q : ℚ | ∃ s : FloatBits mbits ebits,
      s.wellFormed ∧ s.expf ≠ 0 ∧ 0 < s.toRat ∧ s.toRat = q}
      (minNormalRat ebits) := by
  refine ⟨?_, ?_, ?_, ?_, ?_⟩
  · unfold denormDetect
    rw [Bool.and_eq_true, decide_eq_true_eq, decide_eq_true_eq, toRat_fabsF,
      toRat_numericLimitsMin]
  · intro h0
    simp [denormDetect, h0]
  · intro hge
    simp [denormDetect, toRat_fabsF, toRat_numericLimitsMin, not_lt.2 hge]
  · refine ⟨numericLimitsMin mbits ebits, ⟨?_, ?_⟩, one_ne_zero, ?_,
      toRat_numericLimitsMin mbits ebits⟩
    · have h4 : (4 : ℕ) ≤ 2 ^ ebits := by
        calc (4 : ℕ) = 2 ^ 2 := by norm_num
        _ ≤ 2 ^ ebits := Nat.pow_le_pow_right (by norm_num) he
      show (1 : ℕ) < 2 ^ ebits - 1
      omega
    · exact pow_pos (by norm_num) mbits
    · rw [toRat_numericLimitsMin]
      unfold minNormalRat
      positivity
  · rintro q ⟨s, hwf, hne, hpos, rfl⟩
    rw [toRat_eq_sign_mag] at hpos ⊢
    cases hs : s.sign with
    | true =>
      rw [hs, if_pos rfl, neg_one_mul] at hpos
      have := mag_nonneg s
      linarith
    | false =>
      simp only [Bool.false_eq_true, if_false, one_mul]
      unfold FloatBits.mag
      rw [if_neg hne, pow2z_eq]
      have h1 : (2 : ℚ) ^ (1 - bias ebits - (mbits : ℤ)) ≤
          (2 : ℚ) ^ ((s.expf : ℤ) - bias ebits - (mbits : ℤ)) := by
        apply zpow_le_zpow_right₀ (by norm_num)
        have : (1 : ℤ) ≤ (s.expf : ℤ) := by
          exact_mod_cast Nat.one_le_iff_ne_zero.2 hne
        omega
      have h2 : (2 : ℚ) ^ mbits ≤ (2 : ℚ) ^ mbits + (s.mant : ℚ) := by
        have : (0 : ℚ) ≤ (s.mant : ℚ) := by positivity
        linarith
      calc minNormalRat ebits = (2 : ℚ) ^ (1 - bias ebits) := rfl
      _ = (2 : ℚ) ^ mbits * (2 : ℚ) ^ (1 - bias ebits - (mbits : ℤ)) := by
        rw [two_pow_mul_zpow]
      _ ≤ ((2 : ℚ) ^ mbits + (s.mant : ℚ)) *
          (2 : ℚ) ^ ((s.expf : ℤ) - bias ebits - (mbits : ℤ)) := by
        apply mul_le_mul h2 h1 (by positivity) (by positivity)

/-- Witness for C1 at the negative binary64 subnormal with mantissa 5. -/
theorem C1_detector_correct_witness :
    (⟨true, 0, 5⟩ : FloatBits 52 11).wellFormed ∧ 2 ≤ 11 ∧
    ((denormDetect (⟨true, 0, 5⟩ : FloatBits 52 11) = true ↔
      (|(⟨true, 0, 5⟩ : FloatBits 52 11).toRat| < minNormalRat 11 ∧
        (⟨true, 0, 5⟩ : FloatBits 52 11).toRat ≠ 0)) ∧
    ((⟨true, 0, 5⟩ : FloatBits 52 11).toRat = 0 →
      denormDetect (⟨true, 0, 5⟩ : FloatBits 52 11) = false) ∧
    (minNormalRat 11 ≤ |(⟨true, 0, 5⟩ : FloatBits 52 11).toRat| →
      denormDetect (⟨true, 0, 5⟩ : FloatBits 52 11) = false) ∧
    IsLeast {q : ℚ | ∃ s : FloatBits 52 11,
      s.wellFormed ∧ s.expf ≠ 0 ∧ 0 < s.toRat ∧ s.toRat = q}
      (minNormalRat 11)) :=
  ⟨by decide, by norm_num,
    C1_detector_correct (⟨true, 0, 5⟩ : FloatBits 52 11) (by decide) (by norm_num)⟩

/-- C2 counterexample: in observe mode (`IFCD_DOOP` undefined) the fma
interceptor's whole body is compiled out.  With the result slot holding
the smallest positive binary32 subnormal (which the Detector flags) and
`flushToZero = true`, the interceptor returns the slot unchanged and the
hook does not fire — contradicting the claim that the Flush Policy
Applier still runs on the slot. -/
theorem C2_observe_fma_counterexample :
    interflop_checkdenormal_fma_float false (zeroF 23 8) (zeroF 23 8)
        (zeroF 23 8) ⟨false, 0, 1⟩ ⟨true⟩ true = (⟨false, 0, 1⟩, false) ∧
    denormDetect (⟨false, 0, 1⟩ : FloatBits 23 8) = true ∧
    (⟨false, 0, 1⟩ : FloatBits 23 8) ≠ zeroF 23 8 ∧
    (⟨true⟩ : checkdenormal_context_t).flushtozero = true := by
  refine ⟨rfl, ?_, by decide, rfl⟩
  rw [denormDetect_eq_scaled]
  decide

/-- C2 amended: in observe mode the fma interceptors are no-ops — they
do not run the Flush Policy Applier at all, the hook never fires and the
result slot is returned unchanged, whatever it holds and however the
context is configured. -/
theorem C2_observe_fma_noop (a b c res : FloatBits 23 8)
    (a2 b2 c2 res2 : FloatBits 52 11) (ctx ctx2 : checkdenormal_context_t)
    (h1 h2 : Bool) :
    interflop_checkdenormal_fma_float false a b c res ctx h1 = (res, false) ∧
    interflop_checkdenormal_fma_double false a2 b2 c2 res2 ctx2 h2
      = (res2, false) :=
  ⟨rfl, rfl⟩

/-- C3: with `flushToZero = false` the Flush Policy Applier leaves the
result slot unchanged whatever the Detector says, and the diagnostic
hook is invoked exactly when the Detector is true and a hook is
registered. -/
theorem C3_no_flush_frame (ctx : checkdenormal_context_t)
    (hftz : ctx.flushtozero = false) {mbits ebits : Nat}
    (r : FloatBits mbits ebits) (handlerPresent : Bool) :
    (flushToZeroAndCheck r ctx handlerPresent).1 = r ∧
    (flushToZeroAndCheck r ctx handlerPresent).2
      = (denormDetect r && handlerPresent) := by
  unfold flushToZeroAndCheck
  by_cases hd : denormDetect r = true
  · simp [hd, hftz]
  · simp only [Bool.not_eq_true] at hd
    simp [hd]

/-- Witness for C3 at a detected binary32 subnormal with a hook. -/
theorem C3_no_flush_frame_witness :
    (⟨false⟩ : checkdenormal_context_t).flushtozero = false ∧
    ((flushToZeroAndCheck (⟨false, 0, 1⟩ : FloatBits 23 8) ⟨false⟩ true).1
        = ⟨false, 0, 1⟩ ∧
      (flushToZeroAndCheck (⟨false, 0, 1⟩ : FloatBits 23 8) ⟨false⟩ true).2
        = (denormDetect (⟨false, 0, 1⟩ : FloatBits 23 8) && true)) :=
  ⟨rfl, C3_no_flush_frame ⟨false⟩ rfl (⟨false, 0, 1⟩ : FloatBits 23 8) true⟩

/-- C4: with `flushToZero = true` the Flush Policy Applier is idempotent
on the slot value: a second application leaves the slot as the first one
did (a flushed slot holds exact zero, which is never detected). -/
theorem C4_flush_idempotent (ctx : checkdenormal_context_t)
    (hftz : ctx.flushtozero = true) {mbits ebits : Nat}
    (r : FloatBits mbits ebits) (handlerPresent : Bool) :
    (flushToZeroAndCheck (flushToZeroAndCheck r ctx handlerPresent).1
        ctx handlerPresent).1
      = (flushToZeroAndCheck r ctx handlerPresent).1 := by
  unfold flushToZeroAndCheck
  by_cases hd : denormDetect r = true
  · simp [hd, hftz, denormDetect_zeroF]
  · simp only [Bool.not_eq_true] at hd
    simp [hd]

/-- Witness for C4 at a detected binary64 subnormal. -/
theorem C4_flush_idempotent_witness :
    (⟨true⟩ : checkdenormal_context_t).flushtozero = true ∧
    (flushToZeroAndCheck
        (flushToZeroAndCheck (⟨true, 0, 7⟩ : FloatBits 52 11) ⟨true⟩ true).1
        ⟨true⟩ true).1
      = (flushToZeroAndCheck (⟨true, 0, 7⟩ : FloatBits 52 11) ⟨true⟩ true).1 :=
  ⟨rfl, C4_flush_idempotent ⟨true⟩ rfl (⟨true, 0, 7⟩ : FloatBits 52 11) true⟩

set_option exponentiation.threshold 1200 in
set_option maxRecDepth 8000 in
/-- C5: the 64-bit add interceptor in compute mode on `a = 1e-310`,
`b = 0`: the bit pattern of the literal, the computed sum (subnormal,
detected), and the finally stored slot under both flush settings. -/
theorem C5_add_double_1e310 :
    val_1e310 = (⟨false, 0, 20240225330731⟩ : FloatBits 52 11) ∧
    fadd val_1e310 (zeroF 52 11) = val_1e310 ∧
    (fadd val_1e310 (zeroF 52 11)).expf = 0 ∧
    (fadd val_1e310 (zeroF 52 11)).mant ≠ 0 ∧
    denormDetect (fadd val_1e310 (zeroF 52 11)) = true ∧
    (interflop_checkdenormal_add_double true val_1e310 (zeroF 52 11)
        (zeroF 52 11) ⟨true⟩ true).1 = zeroF 52 11 ∧
    (interflop_checkdenormal_add_double true val_1e310 (zeroF 52 11)
        (zeroF 52 11) ⟨false⟩ true).1 = val_1e310 := by
  refine ⟨by decide, by decide, by decide, by decide, ?_, ?_, ?_⟩
  · rw [denormDetect_eq_scaled]
    decide
  · simp only [interflop_checkdenormal_add_double, if_true,
      flushToZeroAndCheck_eq_scaled]
    decide
  · simp only [interflop_checkdenormal_add_double, if_true,
      flushToZeroAndCheck_eq_scaled]
    decide

/-- After a non-empty sequence of configuration writes, the context
holds exactly the value written by the last one. -/
theorem foldl_applyWrite_getLast :
    ∀ (ws : List CfgWrite) (ctx : checkdenormal_context_t) (h : ws ≠ []),
      (ws.foldl applyWrite ctx).flushtozero = writeValue (ws.getLast h)
  | [], _, h => absurd rfl h
  | [w], _, _ => by cases w <;> rfl
  | w1 :: w2 :: t, ctx, _ => by
    rw [List.foldl_cons, List.getLast_cons (List.cons_ne_nil w2 t)]
    exact foldl_applyWrite_getLast (w2 :: t) (applyWrite ctx w1)
      (List.cons_ne_nil w2 t)

/-- A sequence of writes none of which stores `true` keeps the flag
false. -/
theorem foldl_applyWrite_all_false :
    ∀ (ws : List CfgWrite) (ctx : checkdenormal_context_t),
      ctx.flushtozero = false → (∀ w ∈ ws, writeValue w = false) →
      (ws.foldl applyWrite ctx).flushtozero = false
  | [], _, hctx, _ => hctx
  | w :: t, ctx, hctx, hall => by
    rw [List.foldl_cons]
    refine foldl_applyWrite_all_false t (applyWrite ctx w) ?_
      (fun x hx => hall x (List.mem_cons_of_mem w hx))
    cases w with
    | record conf => exact hall (CfgWrite.record conf) (List.mem_cons_self _ _)
    | cliFtz =>
      exact absurd (hall CfgWrite.cliFtz (List.mem_cons_self _ _))
        (by simp [writeValue])

/-- C6: every configuration write overwrites the single context flag —
applying a record stores the record's flag, a subsequent CLI parse of
the flush-to-zero option stores `true`, and after any non-empty write
sequence the context holds the value of the last write in program
order. -/
theorem C6_config_last_write_wins (ctx : checkdenormal_context_t)
    (conf : checkdenormal_conf_t) (ws : List CfgWrite) (h : ws ≠ []) :
    (interflop_checkdenormal_configure conf ctx).flushtozero
      = conf.flushtozero ∧
    (applyWrite (interflop_checkdenormal_configure conf ctx)
        CfgWrite.cliFtz).flushtozero = true ∧
    (ws.foldl applyWrite ctx).flushtozero = writeValue (ws.getLast h) :=
  ⟨rfl, rfl, foldl_applyWrite_getLast ws ctx h⟩

/-- Witness for C6: configure `true`, then the CLI option, read back. -/
theorem C6_config_last_write_wins_witness :
    (interflop_checkdenormal_configure ⟨true⟩ ⟨false⟩).flushtozero
      = (⟨true⟩ : checkdenormal_conf_t).flushtozero ∧
    (applyWrite (interflop_checkdenormal_configure ⟨true⟩ ⟨false⟩)
        CfgWrite.cliFtz).flushtozero = true ∧
    (([CfgWrite.record ⟨true⟩, CfgWrite.cliFtz].foldl applyWrite
        ⟨false⟩).flushtozero
      = writeValue ([CfgWrite.record ⟨true⟩, CfgWrite.cliFtz].getLast
          (List.cons_ne_nil _ _))) :=
  C6_config_last_write_wins ⟨false⟩ ⟨true⟩
    [CfgWrite.record ⟨true⟩, CfgWrite.cliFtz] (List.cons_ne_nil _ _)

/-- C7: the pre-initialized context has `flushtozero = false`, and it
stays false across any sequence of writes none of which enables the
flag. -/
theorem C7_default_flushtozero_false (ws : List CfgWrite)
    (hall : ∀ w ∈ ws, writeValue w = false) :
    interflop_checkdenormal_pre_init.flushtozero = false ∧
    (ws.foldl applyWrite interflop_checkdenormal_pre_init).flushtozero
      = false :=
  ⟨rfl, foldl_applyWrite_all_false ws _ rfl hall⟩

/-- Witness for C7 with one non-enabling record write. -/
theorem C7_default_flushtozero_false_witness :
    (∀ w ∈ [CfgWrite.record ⟨false⟩], writeValue w = false) ∧
    (interflop_checkdenormal_pre_init.flushtozero = false ∧
      ([CfgWrite.record ⟨false⟩].foldl applyWrite
          interflop_checkdenormal_pre_init).flushtozero = false) :=
  ⟨by decide, C7_default_flushtozero_false [CfgWrite.record ⟨false⟩] (by decide)⟩

/-- C8: the operation table returned by the init entry point has the
comparison, function-entry, function-exit and user-call slots absent,
and every other slot bound to this backend's implementation. -/
theorem C8_table_slots :
    interflop_checkdenormal_init.interflop_cmp_float = none ∧
    interflop_checkdenormal_init.interflop_cmp_double = none ∧
    interflop_checkdenormal_init.interflop_enter_function = none ∧
    interflop_checkdenormal_init.interflop_exit_function = none ∧
    interflop_checkdenormal_init.interflop_user_call = none ∧
    interflop_checkdenormal_init.interflop_add_float
      = some BackendFn.add_float ∧
    interflop_checkdenormal_init.interflop_sub_float
      = some BackendFn.sub_float ∧
    interflop_checkdenormal_init.interflop_mul_float
      = some BackendFn.mul_float ∧
    interflop_checkdenormal_init.interflop_div_float
      = some BackendFn.div_float ∧
    interflop_checkdenormal_init.interflop_add_double
      = some BackendFn.add_double ∧
    interflop_checkdenormal_init.interflop_sub_double
      = some BackendFn.sub_double ∧
    interflop_checkdenormal_init.interflop_mul_double
      = some BackendFn.mul_double ∧
    interflop_checkdenormal_init.interflop_div_double
      = some BackendFn.div_double ∧
    interflop_checkdenormal_init.interflop_cast_double_to_float
      = some BackendFn.cast_double_to_float ∧
    interflop_checkdenormal_init.interflop_fma_float
      = some BackendFn.fma_float ∧
    interflop_checkdenormal_init.interflop_fma_double
      = some BackendFn.fma_double ∧
    interflop_checkdenormal_init.interflop_finalize
      = some BackendFn.finalize := by
  decide

/-- C9: the CLI entry point with no host `argp_parse` reports through
the fatal channel without touching the context (and with the primitive
present it just runs it); `parse_opt` answers every key other than the
flush-to-zero key with `ARGP_ERR_UNKNOWN`. -/
theorem C9_cli_fatal_and_unknown_key (ctx : checkdenormal_context_t)
    (key : Int) (hk : key ≠ KEY_FTZ) :
    interflop_checkdenormal_cli none ctx = CliOutcome.fatal argpMissingText ∧
    (∀ f, interflop_checkdenormal_cli (some f) ctx
      = CliOutcome.parsed (f ctx)) ∧
    parse_opt key ctx = Except.error ARGP_ERR_UNKNOWN := by
  refine ⟨rfl, fun f => rfl, ?_⟩
  unfold parse_opt
  rw [if_neg hk]

/-- Witness for C9 at key 1 (any key other than `KEY_FTZ`). -/
theorem C9_cli_fatal_and_unknown_key_witness :
    (1 : Int) ≠ KEY_FTZ ∧
    (interflop_checkdenormal_cli none ⟨false⟩
        = CliOutcome.fatal argpMissingText ∧
      (∀ f, interflop_checkdenormal_cli (some f) ⟨false⟩
        = CliOutcome.parsed (f ⟨false⟩)) ∧
      parse_opt 1 ⟨false⟩ = Except.error ARGP_ERR_UNKNOWN) :=
  ⟨by decide, C9_cli_fatal_and_unknown_key ⟨false⟩ 1 (by decide)⟩

/-- C10: a detected subnormal is flushed to positive zero: the flush
stores the literal `0.`, whose sign bit is clear, never negative zero. -/
theorem C10_flush_positive_zero (ctx : checkdenormal_context_t)
    (hftz : ctx.flushtozero = true) {mbits ebits : Nat}
    (r : FloatBits mbits ebits) (handlerPresent : Bool)
    (hd : denormDetect r = true) :
    (flushToZeroAndCheck r ctx handlerPresent).1 = zeroF mbits ebits ∧
    (flushToZeroAndCheck r ctx handlerPresent).1.sign = false := by
  unfold flushToZeroAndCheck
  simp [hd, hftz, zeroF]

/-- Witness for C10 at the negative binary64 subnormal with mantissa 9:
the flushed slot is `+0`, not `-0`. -/
theorem C10_flush_positive_zero_witness :
    (⟨true⟩ : checkdenormal_context_t).flushtozero = true ∧
    denormDetect (⟨true, 0, 9⟩ : FloatBits 52 11) = true ∧
    ((flushToZeroAndCheck (⟨true, 0, 9⟩ : FloatBits 52 11) ⟨true⟩ true).1
        = zeroF 52 11 ∧
      (flushToZeroAndCheck (⟨true, 0, 9⟩ : FloatBits 52 11) ⟨true⟩ true).1.sign
        = false) :=
  ⟨rfl, by rw [denormDetect_eq_scaled]; decide,
    C10_flush_positive_zero ⟨true⟩ rfl (⟨true, 0, 9⟩ : FloatBits 52 11) true
      (by rw [denormDetect_eq_scaled]; decide)⟩
